import Mathlib

/-!
Verification of the authentication core of the blogging-platform backend.

The repository is a Hono edge service (`src/index.ts`, `src/middleware.ts`).
The verified core is:
  * `authMiddleware` (src/middleware.ts): the auth gate that reads the
    `Authorization` header, verifies a bearer token and either attaches the
    decoded identity claim to the request context and calls the next handler,
    or terminates the request with an error response;
  * the signin token issuance inside `app.post('/users/signin')`
    (src/index.ts): on a successful credential lookup it signs a payload
    `{id, email, password}` with the literal secret `'BLOG_SECRET'`.

The token codec (`sign`/`verify` from `hono/jwt`) is an external library whose
sources are not part of this repository; it is modelled symbolically from the
specification's Token Codec contract, with an executable injective encoding so
that every statement can be evaluated on concrete inputs.
-/

set_option maxHeartbeats 1000000

/-- A scalar claim value: the specification restricts identity-claim values to
string/number scalars. -/
inductive ClaimVal where
  | str (s : String)
  | num (n : Int)
deriving DecidableEq, Repr

/-- An identity claim: a mapping of claim names to scalar values, represented
as an association list. -/
abbrev Claim := List (String × ClaimVal)

/-- A response body produced by the gate: a JSON object `{message: ...}`
(as built by Hono's `c.json({message: ...})`) or a plain-text body
(as built by `c.body(...)`). -/
inductive Body where
  | json (message : String)
  | text (s : String)
deriving DecidableEq, Repr

/-- An HTTP response: status code and body. -/
structure Response where
  status : Nat
  body : Body
deriving DecidableEq, Repr

/-- Outcome of a call to the token codec's `verify`, as observed by the
middleware's JavaScript: it either returns a truthy decoded claim object,
returns a falsy value, or throws an exception (modelled by its message). -/
inductive VerifyResult where
  | ok (claim : Claim)
  | falsy
  | thrown (e : String)
deriving DecidableEq, Repr

/-- The request-scoped Hono context, split into the `user` entry the gate may
write (`c.set('user', decoded)`) and all remaining request-context state
`rest`, left abstract. -/
structure Ctx (α : Type) where
  user : Option Claim
  rest : α
deriving DecidableEq, Repr

/-- Everything observable about one run of the auth gate on a request:
the response sent, the final request context, the context passed to the next
handler (`none` when `next` was not invoked), the list of tokens on which the
codec's `verify` was invoked, and the server-side error-log entries appended
(`console.error`). -/
structure GateResult (α : Type) where
  response : Response
  ctx : Ctx α
  ctxAtNext : Option (Ctx α)
  verifyCalls : List String
  log : List String
deriving DecidableEq, Repr

/-- JavaScript string falsiness (`!authorizationHeader` for a present header):
true exactly on the empty string. -/
def strFalsy (s : String) : Bool := s.data.isEmpty

/-- JavaScript `String.prototype.startsWith`: `pre` is a prefix of `s`. -/
def startsWithB (s pre : String) : Bool := pre.data.isPrefixOf s.data

/-- JavaScript `String.prototype.slice(n)` for `n ≤ s.length`: drop the first
`n` characters. -/
def strDrop (s : String) (n : Nat) : String := String.mk (s.data.drop n)

/-- The literal secret `'BLOG_SECRET'` passed to `verify` at
src/middleware.ts line 18. -/
def middlewareSecret : String := "BLOG_SECRET"

/-- The literal secret `'BLOG_SECRET'` bound to `const secret` at
src/index.ts line 130 and used to sign the signin token. -/
def signinSecret : String := "BLOG_SECRET"

/-- Shallow embedding of `authMiddleware` (src/middleware.ts lines 8-29),
parameterised by the codec's `verify` (applied to the extracted token) and by
the downstream pipeline `next` (which may rewrite the context and produces the
response of the remaining handlers).

Control flow of the source: if the `Authorization` header is absent or falsy
or does not start with `'Bearer '`, return 401 JSON; otherwise slice off the
7-character prefix, call `verify`; a truthy decoded value is stored with
`c.set('user', decoded)` and `next` runs; a falsy value yields a 401 plain-text
response; a thrown exception is caught, logged with `console.error`, and
yields 400 JSON. -/
def authMiddleware {α : Type} (verify : String → VerifyResult)
    (next : Ctx α → Ctx α × Response) (ctx : Ctx α) (authHeader : Option String) :
    GateResult α :=
  match authHeader with
  | none =>
    { response := ⟨401, Body.json "Access Denied. No token provided."⟩
      ctx := ctx, ctxAtNext := none, verifyCalls := [], log := [] }
  | some h =>
    if strFalsy h || !(startsWithB h "Bearer ") then
      { response := ⟨401, Body.json "Access Denied. No token provided."⟩
        ctx := ctx, ctxAtNext := none, verifyCalls := [], log := [] }
    else
      let token := strDrop h 7
      match verify token with
      | VerifyResult.ok claim =>
        let ctx' := { ctx with user := some claim }
        let r := next ctx'
        { response := r.2, ctx := r.1, ctxAtNext := some ctx'
          verifyCalls := [token], log := [] }
      | VerifyResult.falsy =>
        { response := ⟨401, Body.text "You are an unauthorized user, sorry"⟩
          ctx := ctx, ctxAtNext := none, verifyCalls := [token], log := [] }
      | VerifyResult.thrown e =>
        { response := ⟨400, Body.json "Invalid Token"⟩
          ctx := ctx, ctxAtNext := none, verifyCalls := [token], log := [e] }

/-- Modelled from the spec: building block of the Token Codec's opaque string
format (the `hono/jwt` implementation is not among this repository's sources).
A byte chunk is serialised self-delimitingly as a unary length prefix followed
by `':'` and the payload, so that concatenated fields can be recovered
exactly. -/
def encChunk (s : List Char) : List Char := List.replicate s.length '@' ++ ':' :: s

/-- Modelled from the spec: parse one self-delimiting chunk off the front of a
token byte stream, returning the chunk and the remainder, or `none` when the
stream cannot be parsed. -/
def decChunk (cs : List Char) : Option (List Char × List Char) :=
  let n := (cs.takeWhile (fun c => c = '@')).length
  match cs.dropWhile (fun c => c = '@') with
  | c :: t => if c = ':' ∧ n ≤ t.length then some (t.take n, t.drop n) else none
  | [] => none

/-- Modelled from the spec: serialisation of one scalar claim value, tagged by
kind (`'s'` string, `'n'`/`'m'` non-negative/negative number, the magnitude in
unary). -/
def valEnc : ClaimVal → List Char
  | ClaimVal.str s => 's' :: s.data
  | ClaimVal.num (Int.ofNat m) => 'n' :: List.replicate m 'u'
  | ClaimVal.num (Int.negSucc m) => 'm' :: List.replicate m 'u'

/-- Modelled from the spec: deserialisation of one scalar claim value; `none`
on any byte sequence that is not a valid `valEnc` image. -/
def valDec : List Char → Option ClaimVal
  | 's' :: t => some (ClaimVal.str (String.mk t))
  | 'n' :: t => if t.all (fun c => c = 'u') then some (ClaimVal.num (Int.ofNat t.length)) else none
  | 'm' :: t => if t.all (fun c => c = 'u') then some (ClaimVal.num (Int.negSucc t.length)) else none
  | _ => none

/-- Modelled from the spec: serialisation of an identity claim as the
concatenation of chunked key/value pairs. -/
def claimEnc : Claim → List Char
  | [] => []
  | (k, v) :: rest => encChunk k.data ++ encChunk (valEnc v) ++ claimEnc rest

/-- Modelled from the spec: fuelled deserialisation of an identity claim;
each step consumes a key chunk and a value chunk. -/
def claimDecAux : Nat → List Char → Option Claim
  | _, [] => some []
  | 0, _ :: _ => none
  | fuel + 1, c :: cs =>
    match decChunk (c :: cs) with
    | none => none
    | some (kb, r1) =>
      match decChunk r1 with
      | none => none
      | some (vb, r2) =>
        match valDec vb with
        | none => none
        | some v =>
          match claimDecAux fuel r2 with
          | none => none
          | some rest => some ((String.mk kb, v) :: rest)

/-- Modelled from the spec: deserialisation of an identity claim (the byte
length bounds the number of entries, so it serves as fuel). -/
def claimDec (cs : List Char) : Option Claim := claimDecAux cs.length cs

/-- Modelled from the spec: the integrity signature over the claim bytes under
a shared secret — symbolic MAC determined by the secret and the message, such
that signatures under different secrets never coincide. -/
def mac (secret : String) (msg : List Char) : List Char := encChunk secret.data ++ msg

/-- Modelled from the spec: Token Codec `sign(claim, secret) -> token`
(`hono/jwt`'s `sign`, not among this repository's sources): a
deterministic-format opaque string encoding the claim plus an integrity
signature over the claim bytes under the shared secret. -/
def sign (claim : Claim) (secret : String) : String :=
  String.mk (encChunk (claimEnc claim) ++ mac secret (claimEnc claim))

/-- Modelled from the spec: Token Codec `verify(token, secret)` (`hono/jwt`'s
`verify`, not among this repository's sources): recompute the signature over
the claim bytes using `secret` and succeed only if it matches the token's
signature; throw `JwtTokenSignatureMismatched` on mismatch and
`JwtTokenInvalid` when the token cannot be parsed. -/
def jwtVerify (token : String) (secret : String) : VerifyResult :=
  match decChunk token.data with
  | none => VerifyResult.thrown "JwtTokenInvalid"
  | some (cb, sig) =>
    if sig = mac secret cb then
      match claimDec cb with
      | some c => VerifyResult.ok c
      | none => VerifyResult.thrown "JwtTokenInvalid"
    else VerifyResult.thrown "JwtTokenSignatureMismatched"

/-- The auth gate as deployed: `authMiddleware` with the codec's `verify`
applied at the hard-coded middleware secret (src/middleware.ts line 18). -/
def authGate {α : Type} (next : Ctx α → Ctx α × Response) (ctx : Ctx α)
    (authHeader : Option String) : GateResult α :=
  authMiddleware (fun token => jwtVerify token middlewareSecret) next ctx authHeader

/-- A stored user record (Prisma `User` model). -/
structure User where
  id : Int
  username : String
  email : String
  password : String
deriving DecidableEq, Repr

/-- The Worker environment bindings (`interface Env` in src/index.ts). -/
structure Env where
  DATABASE_URL : String
  DIRECT_URL : Option String
deriving DecidableEq, Repr

/-- Outcome of the signin handler's core: success carries the found user and
the issued token (`c.json({message, user, token})`); otherwise the handler
responds 400 `Invalid email or password`. -/
inductive SigninResult where
  | success (user : User) (token : String)
  | invalidCredentials
deriving DecidableEq, Repr

/-- The payload object built at src/index.ts lines 124-128: the found user's
`id`, `email` and stored `password`. -/
def signinPayload (u : User) : Claim :=
  [("id", ClaimVal.num u.id), ("email", ClaimVal.str u.email),
   ("password", ClaimVal.str u.password)]

/-- Shallow embedding of the success/failure core of
`app.post('/users/signin')` (src/index.ts lines 112-134): the credential
lookup (`prisma.user.findUnique({where: {email, password}})`, an external
collaborator reached through the env's database URL) is passed in as a
function; on a found user the handler signs `signinPayload` with
`signinSecret` and returns it with the token. Schema validation and the
error paths to 400/500 JSON are external to this core. -/
def signin (env : Env) (lookup : Env → String → String → Option User)
    (email password : String) : SigninResult :=
  match lookup env email password with
  | some user => SigninResult.success user (sign (signinPayload user) signinSecret)
  | none => SigninResult.invalidCredentials

/-! ### Basic facts about the string embedding -/

theorem data_mk (l : List Char) : (String.mk l).data = l := rfl

theorem mk_data (s : String) : String.mk s.data = s := rfl

theorem data_append (s t : String) : (s ++ t).data = s.data ++ t.data := rfl

theorem strFalsy_eq_false_of_bearer {h : String}
    (hs : startsWithB h "Bearer " = true) : strFalsy h = false := by
  unfold startsWithB at hs
  unfold strFalsy
  cases hd : h.data with
  | nil => rw [hd] at hs; exact absurd hs (by decide)
  | cons a t => simp

theorem startsWithB_bearer (t : String) :
    startsWithB ("Bearer " ++ t) "Bearer " = true := by
  unfold startsWithB
  rw [data_append, List.isPrefixOf_iff_prefix]
  exact List.prefix_append _ _

theorem strDrop_bearer (t : String) : strDrop ("Bearer " ++ t) 7 = t := by
  unfold strDrop
  rw [data_append]
  have h7 : (7 : Nat) = ("Bearer ".data).length := by decide
  rw [h7, List.drop_left]

/-! ### The chunk format is self-delimiting -/

theorem takeWhile_amp_replicate (n : Nat) (t : List Char) :
    List.takeWhile (fun c => c = '@') (List.replicate n '@' ++ ':' :: t) =
      List.replicate n '@' := by
  induction n with
  | zero => simp [List.takeWhile]
  | succ k ih => simp [List.replicate, List.takeWhile]

theorem dropWhile_amp_replicate (n : Nat) (t : List Char) :
    List.dropWhile (fun c => c = '@') (List.replicate n '@' ++ ':' :: t) =
      ':' :: t := by
  induction n with
  | zero => simp [List.dropWhile]
  | succ k ih => simp [List.replicate, List.dropWhile]

theorem decChunk_encChunk (s r : List Char) :
    decChunk (encChunk s ++ r) = some (s, r) := by
  have h1 := takeWhile_amp_replicate s.length (s ++ r)
  have h2 := dropWhile_amp_replicate s.length (s ++ r)
  simp only [decChunk, encChunk, List.append_assoc, List.cons_append]
  rw [h1, h2, List.length_replicate]
  show (if ':' = ':' ∧ s.length ≤ (s ++ r).length then
      some (List.take s.length (s ++ r), List.drop s.length (s ++ r)) else none) = some (s, r)
  rw [if_pos ⟨rfl, by simp⟩, List.take_left, List.drop_left]

/-! ### Round-trip of the claim serialisation -/

theorem valDec_valEnc (v : ClaimVal) : valDec (valEnc v) = some v := by
  cases v with
  | str s => rfl
  | num n =>
    cases n with
    | ofNat m =>
      simp only [valEnc, valDec]
      rw [if_pos (by simp [List.all_eq_true, List.mem_replicate])]
      rw [List.length_replicate]
    | negSucc m =>
      simp only [valEnc, valDec]
      rw [if_pos (by simp [List.all_eq_true, List.mem_replicate])]
      rw [List.length_replicate]

theorem length_le_claimEnc (c : Claim) : c.length ≤ (claimEnc c).length := by
  induction c with
  | nil => simp [claimEnc]
  | cons kv rest ih =>
    obtain ⟨k, v⟩ := kv
    simp only [claimEnc, List.length_append, List.length_cons, encChunk,
      List.length_replicate]
    omega

theorem claimDecAux_claimEnc (c : Claim) :
    ∀ fuel, c.length ≤ fuel → claimDecAux fuel (claimEnc c) = some c := by
  induction c with
  | nil =>
    intro fuel _
    cases fuel <;> rfl
  | cons kv rest ih =>
    intro fuel hf
    obtain ⟨k, v⟩ := kv
    cases fuel with
    | zero => simp at hf
    | succ f =>
      have hrest : rest.length ≤ f := by
        simp only [List.length_cons] at hf
        omega
      have henc : claimEnc ((k, v) :: rest) =
          encChunk k.data ++ (encChunk (valEnc v) ++ claimEnc rest) := by
        simp [claimEnc, List.append_assoc]
      cases hl : claimEnc ((k, v) :: rest) with
      | nil =>
        exfalso
        rw [henc] at hl
        have h0 := congrArg List.length hl
        simp [encChunk, List.length_append] at h0
      | cons ch ct =>
        rw [henc] at hl
        have hd1 : decChunk (ch :: ct) =
            some (k.data, encChunk (valEnc v) ++ claimEnc rest) := by
          rw [← hl]
          exact decChunk_encChunk _ _
        simp only [claimDecAux, hd1, decChunk_encChunk, valDec_valEnc, ih f hrest]

theorem claimDec_claimEnc (c : Claim) : claimDec (claimEnc c) = some c :=
  claimDecAux_claimEnc c (claimEnc c).length (length_le_claimEnc c)

/-! ### The Token Codec contract -/

theorem jwtVerify_sign (claim : Claim) (secret : String) :
    jwtVerify (sign claim secret) secret = VerifyResult.ok claim := by
  simp only [jwtVerify, sign, data_mk, decChunk_encChunk, claimDec_claimEnc, if_pos rfl,
    if_true]

theorem mac_secret_inj {s s' : String} {cb : List Char}
    (h : mac s cb = mac s' cb) : s = s' := by
  unfold mac at h
  have h1 := decChunk_encChunk s.data cb
  have h2 := decChunk_encChunk s'.data cb
  rw [h] at h1
  rw [h2] at h1
  have h3 : s'.data = s.data := congrArg Prod.fst (Option.some.inj h1)
  calc s = String.mk s.data := rfl
    _ = String.mk s'.data := by rw [h3]
    _ = s' := rfl

theorem jwtVerify_sign_wrong (claim : Claim) {s s' : String} (hne : s ≠ s') :
    jwtVerify (sign claim s) s' = VerifyResult.thrown "JwtTokenSignatureMismatched" := by
  simp only [jwtVerify, sign, data_mk, decChunk_encChunk]
  rw [if_neg]
  intro hmac
  exact hne (mac_secret_inj hmac)

/-! ### Branch lemmas for the auth gate -/

theorem authMiddleware_none {α : Type} (verify : String → VerifyResult)
    (next : Ctx α → Ctx α × Response) (ctx : Ctx α) :
    authMiddleware verify next ctx none =
      { response := ⟨401, Body.json "Access Denied. No token provided."⟩
        ctx := ctx, ctxAtNext := none, verifyCalls := [], log := [] } := rfl

theorem authMiddleware_not_bearer {α : Type} (verify : String → VerifyResult)
    (next : Ctx α → Ctx α × Response) (ctx : Ctx α) (h : String)
    (hs : startsWithB h "Bearer " = false) :
    authMiddleware verify next ctx (some h) =
      { response := ⟨401, Body.json "Access Denied. No token provided."⟩
        ctx := ctx, ctxAtNext := none, verifyCalls := [], log := [] } := by
  simp [authMiddleware, hs]

theorem authMiddleware_ok {α : Type} (verify : String → VerifyResult)
    (next : Ctx α → Ctx α × Response) (ctx : Ctx α) (h : String) (claim : Claim)
    (hs : startsWithB h "Bearer " = true)
    (hv : verify (strDrop h 7) = VerifyResult.ok claim) :
    authMiddleware verify next ctx (some h) =
      { response := (next { ctx with user := some claim }).2
        ctx := (next { ctx with user := some claim }).1
        ctxAtNext := some { ctx with user := some claim }
        verifyCalls := [strDrop h 7], log := [] } := by
  simp [authMiddleware, hs, strFalsy_eq_false_of_bearer hs, hv]

theorem authMiddleware_falsy {α : Type} (verify : String → VerifyResult)
    (next : Ctx α → Ctx α × Response) (ctx : Ctx α) (h : String)
    (hs : startsWithB h "Bearer " = true)
    (hv : verify (strDrop h 7) = VerifyResult.falsy) :
    authMiddleware verify next ctx (some h) =
      { response := ⟨401, Body.text "You are an unauthorized user, sorry"⟩
        ctx := ctx, ctxAtNext := none, verifyCalls := [strDrop h 7], log := [] } := by
  simp [authMiddleware, hs, strFalsy_eq_false_of_bearer hs, hv]

theorem authMiddleware_thrown {α : Type} (verify : String → VerifyResult)
    (next : Ctx α → Ctx α × Response) (ctx : Ctx α) (h : String) (e : String)
    (hs : startsWithB h "Bearer " = true)
    (hv : verify (strDrop h 7) = VerifyResult.thrown e) :
    authMiddleware verify next ctx (some h) =
      { response := ⟨400, Body.json "Invalid Token"⟩
        ctx := ctx, ctxAtNext := none, verifyCalls := [strDrop h 7], log := [e] } := by
  simp [authMiddleware, hs, strFalsy_eq_false_of_bearer hs, hv]

/-! ### The claims -/

/-- C1: for every request whose Authorization header is absent or does not
start with the prefix `'Bearer '`, the auth gate returns status 401 with JSON
body `{message: "Access Denied. No token provided."}`, does not call the token
codec's `verify` (the result is the same for every `verify` and records no
`verify` invocation), and does not invoke the next handler. -/
theorem c1_missing_or_non_bearer_header_rejected {α : Type}
    (verify : String → VerifyResult) (next : Ctx α → Ctx α × Response)
    (ctx : Ctx α) (authHeader : Option String)
    (hnb : ∀ h, authHeader = some h → startsWithB h "Bearer " = false) :
    authMiddleware verify next ctx authHeader =
      { response := ⟨401, Body.json "Access Denied. No token provided."⟩
        ctx := ctx, ctxAtNext := none, verifyCalls := [], log := [] } := by
  cases authHeader with
  | none => exact authMiddleware_none verify next ctx
  | some h => exact authMiddleware_not_bearer verify next ctx h (hnb h rfl)

/-- Witness for C1: a request with no Authorization header and a request whose
header starts with `'Token '` are both rejected with the 401 JSON response. -/
theorem c1_witness :
    authMiddleware (fun t => jwtVerify t middlewareSecret)
        (fun c => (c, ⟨200, Body.json "ok"⟩)) (⟨none, ()⟩ : Ctx Unit) none =
      { response := ⟨401, Body.json "Access Denied. No token provided."⟩
        ctx := ⟨none, ()⟩, ctxAtNext := none, verifyCalls := [], log := [] } ∧
    authMiddleware (fun t => jwtVerify t middlewareSecret)
        (fun c => (c, ⟨200, Body.json "ok"⟩)) (⟨none, ()⟩ : Ctx Unit)
        (some "Token abc") =
      { response := ⟨401, Body.json "Access Denied. No token provided."⟩
        ctx := ⟨none, ()⟩, ctxAtNext := none, verifyCalls := [], log := [] } :=
  ⟨c1_missing_or_non_bearer_header_rejected _ _ _ _ (fun _ hh => nomatch hh),
   c1_missing_or_non_bearer_header_rejected _ _ _ _
     (fun h hh => by cases hh; decide)⟩

/-- C2: for every request carrying a token on which `verify` succeeds with a
truthy claim, the gate sets the context entry `user` to exactly the decoded
claim and invokes the next handler on that context, whose result becomes the
final context and response. -/
theorem c2_verified_claim_attached_and_next_invoked {α : Type}
    (verify : String → VerifyResult) (next : Ctx α → Ctx α × Response)
    (ctx : Ctx α) (h : String) (claim : Claim)
    (hs : startsWithB h "Bearer " = true)
    (hv : verify (strDrop h 7) = VerifyResult.ok claim) :
    (authMiddleware verify next ctx (some h)).ctxAtNext =
        some { ctx with user := some claim } ∧
    (authMiddleware verify next ctx (some h)).ctx =
        (next { ctx with user := some claim }).1 ∧
    (authMiddleware verify next ctx (some h)).response =
        (next { ctx with user := some claim }).2 := by
  rw [authMiddleware_ok verify next ctx h claim hs hv]
  exact ⟨rfl, rfl, rfl⟩

/-- Witness for C2: for a token signed with the correct secret over the claim
`{id: 1, email: "a@b.com"}`, the gate attaches exactly that claim (so the
downstream handler sees `user.id === 1`) and invokes the next handler. -/
theorem c2_witness :
    (authMiddleware (fun t => jwtVerify t middlewareSecret)
        (fun c => (c, ⟨200, Body.json "ok"⟩)) (⟨none, ()⟩ : Ctx Unit)
        (some ("Bearer " ++
          sign [("id", ClaimVal.num 1), ("email", ClaimVal.str "a@b.com")]
            "BLOG_SECRET"))).ctxAtNext =
      some ⟨some [("id", ClaimVal.num 1), ("email", ClaimVal.str "a@b.com")], ()⟩ :=
  (c2_verified_claim_attached_and_next_invoked _ _ _ _
    [("id", ClaimVal.num 1), ("email", ClaimVal.str "a@b.com")]
    (by decide) (by decide)).1

/-- C3: for every request whose token verification throws, the gate catches
the exception, logs it server-side, returns status 400 with JSON body
`{message: "Invalid Token"}`, and does not invoke the next handler. -/
theorem c3_thrown_verification_yields_400_and_log {α : Type}
    (verify : String → VerifyResult) (next : Ctx α → Ctx α × Response)
    (ctx : Ctx α) (h : String) (e : String)
    (hs : startsWithB h "Bearer " = true)
    (hv : verify (strDrop h 7) = VerifyResult.thrown e) :
    authMiddleware verify next ctx (some h) =
      { response := ⟨400, Body.json "Invalid Token"⟩
        ctx := ctx, ctxAtNext := none, verifyCalls := [strDrop h 7]
        log := [e] } :=
  authMiddleware_thrown verify next ctx h e hs hv

/-- Witness for C3: the syntactically invalid token `"x"` makes `verify`
throw, and the gate answers 400 `Invalid Token`, logging the error and not
invoking the next handler. -/
theorem c3_witness :
    authMiddleware (fun t => jwtVerify t middlewareSecret)
        (fun c => (c, ⟨200, Body.json "ok"⟩)) (⟨none, ()⟩ : Ctx Unit)
        (some "Bearer x") =
      { response := ⟨400, Body.json "Invalid Token"⟩
        ctx := ⟨none, ()⟩, ctxAtNext := none, verifyCalls := ["x"]
        log := ["JwtTokenInvalid"] } := by
  have h := c3_thrown_verification_yields_400_and_log
    (fun t => jwtVerify t middlewareSecret)
    (fun c => (c, ⟨200, Body.json "ok"⟩)) (⟨none, ()⟩ : Ctx Unit)
    "Bearer x" "JwtTokenInvalid" (by decide) (by decide)
  rw [h]
  have hx : strDrop "Bearer x" 7 = "x" := by decide
  rw [hx]

/-- C4: a token signed with a secret different from the gate's shared secret
makes `verify` throw (signature mismatch), so the gate answers through the
exception path with status 400 (not 401) and does not invoke the next
handler. -/
theorem c4_wrong_secret_token_yields_400 {α : Type}
    (next : Ctx α → Ctx α × Response) (ctx : Ctx α) (claim : Claim)
    (s : String) (hne : s ≠ middlewareSecret) :
    jwtVerify (sign claim s) middlewareSecret =
      VerifyResult.thrown "JwtTokenSignatureMismatched" ∧
    authGate next ctx (some ("Bearer " ++ sign claim s)) =
      { response := ⟨400, Body.json "Invalid Token"⟩
        ctx := ctx, ctxAtNext := none, verifyCalls := [sign claim s]
        log := ["JwtTokenSignatureMismatched"] } := by
  have hverify := jwtVerify_sign_wrong claim hne
  refine ⟨hverify, ?_⟩
  have hthr := authMiddleware_thrown (fun t => jwtVerify t middlewareSecret) next ctx
    ("Bearer " ++ sign claim s) "JwtTokenSignatureMismatched"
    (startsWithB_bearer _) (by rw [strDrop_bearer]; exact hverify)
  unfold authGate
  rw [hthr, strDrop_bearer]

/-- Witness for C4: a token over `{id: 1}` signed with the secret `"OTHER"`
is rejected by the gate with 400 `Invalid Token`. -/
theorem c4_witness :
    authGate (fun (c : Ctx Unit) => (c, ⟨200, Body.json "ok"⟩)) ⟨none, ()⟩
        (some ("Bearer " ++ sign [("id", ClaimVal.num 1)] "OTHER")) =
      { response := ⟨400, Body.json "Invalid Token"⟩
        ctx := ⟨none, ()⟩, ctxAtNext := none
        verifyCalls := [sign [("id", ClaimVal.num 1)] "OTHER"]
        log := ["JwtTokenSignatureMismatched"] } :=
  (c4_wrong_secret_token_yields_400 _ _ [("id", ClaimVal.num 1)] "OTHER"
    (by decide)).2

/-- C5: round-trip of the Token Codec — for every claim mapping of
string/number scalars and every secret, `verify (sign claim secret) secret`
succeeds and returns that same claim. -/
theorem c5_sign_verify_roundtrip (claim : Claim) (secret : String) :
    jwtVerify (sign claim secret) secret = VerifyResult.ok claim :=
  jwtVerify_sign claim secret

/-- C6: for every request whose verification completes without throwing but
returns a falsy result, the gate returns status 401 with the plain-text body
`You are an unauthorized user, sorry` and does not invoke the next handler. -/
theorem c6_falsy_verification_yields_401_text {α : Type}
    (verify : String → VerifyResult) (next : Ctx α → Ctx α × Response)
    (ctx : Ctx α) (h : String)
    (hs : startsWithB h "Bearer " = true)
    (hv : verify (strDrop h 7) = VerifyResult.falsy) :
    authMiddleware verify next ctx (some h) =
      { response := ⟨401, Body.text "You are an unauthorized user, sorry"⟩
        ctx := ctx, ctxAtNext := none, verifyCalls := [strDrop h 7]
        log := [] } :=
  authMiddleware_falsy verify next ctx h hs hv

/-- Witness for C6: with a codec whose `verify` returns a falsy value, the
gate answers 401 with the plain-text body and does not invoke the next
handler. -/
theorem c6_witness :
    authMiddleware (fun _ => VerifyResult.falsy)
        (fun c => (c, ⟨200, Body.json "ok"⟩)) (⟨none, ()⟩ : Ctx Unit)
        (some "Bearer abc") =
      { response := ⟨401, Body.text "You are an unauthorized user, sorry"⟩
        ctx := ⟨none, ()⟩, ctxAtNext := none, verifyCalls := ["abc"]
        log := [] } := by
  have h := c6_falsy_verification_yields_401_text (fun _ => VerifyResult.falsy)
    (fun c => (c, ⟨200, Body.json "ok"⟩)) (⟨none, ()⟩ : Ctx Unit)
    "Bearer abc" (by decide) rfl
  rw [h]
  have hx : strDrop "Bearer abc" 7 = "abc" := by decide
  rw [hx]

/-- Counterexample to C7 as stated: on the exception path the gate writes to
state outside the request — `console.error` appends the caught error to the
server-side log — so it is not true that on every outcome the gate changes
nothing but the context's `user` entry. Concrete input: a request with header
`Bearer x` leaves the gate with a non-empty log. -/
theorem c7_counterexample :
    (authGate (fun (c : Ctx Unit) => (c, ⟨200, Body.json "ok"⟩)) ⟨none, ()⟩
        (some "Bearer x")).log = ["JwtTokenInvalid"] ∧
    (["JwtTokenInvalid"] : List String) ≠ [] :=
  ⟨by decide, by decide⟩

/-- C7 (amended): for every request, the only request-context state the gate
itself mutates is the `user` entry, written exactly on the success path (when
`next` is not invoked the context is returned untouched; the context handed to
`next` differs from the original only in `user`); and apart from that the only
state the gate touches is the server-side error log, appended exactly on the
exception path (on which the gate answers 400 `Invalid Token` without invoking
`next`). -/
theorem c7_amended_frame {α : Type} (verify : String → VerifyResult)
    (next : Ctx α → Ctx α × Response) (ctx : Ctx α) (authHeader : Option String) :
    ((authMiddleware verify next ctx authHeader).ctxAtNext = none →
        (authMiddleware verify next ctx authHeader).ctx = ctx) ∧
    (∀ c', (authMiddleware verify next ctx authHeader).ctxAtNext = some c' →
        c' = { ctx with user := c'.user } ∧ c'.rest = ctx.rest) ∧
    ((authMiddleware verify next ctx authHeader).log = [] ∨
      ((authMiddleware verify next ctx authHeader).response =
          ⟨400, Body.json "Invalid Token"⟩ ∧
        (authMiddleware verify next ctx authHeader).ctxAtNext = none ∧
        (authMiddleware verify next ctx authHeader).ctx = ctx)) := by
  cases authHeader with
  | none =>
    rw [authMiddleware_none]
    exact ⟨fun _ => rfl, fun c' hc => Option.noConfusion hc, Or.inl rfl⟩
  | some h =>
    cases hs : startsWithB h "Bearer " with
    | false =>
      rw [authMiddleware_not_bearer verify next ctx h hs]
      exact ⟨fun _ => rfl, fun c' hc => Option.noConfusion hc, Or.inl rfl⟩
    | true =>
      cases hv : verify (strDrop h 7) with
      | ok claim =>
        rw [authMiddleware_ok verify next ctx h claim hs hv]
        refine ⟨fun hn => Option.noConfusion hn, ?_, Or.inl rfl⟩
        intro c' hc
        injection hc with h1
        subst h1
        exact ⟨rfl, rfl⟩
      | falsy =>
        rw [authMiddleware_falsy verify next ctx h hs hv]
        exact ⟨fun _ => rfl, fun c' hc => Option.noConfusion hc, Or.inl rfl⟩
      | thrown e =>
        rw [authMiddleware_thrown verify next ctx h e hs hv]
        exact ⟨fun _ => rfl, fun c' hc => Option.noConfusion hc, Or.inr ⟨rfl, rfl, rfl⟩⟩

/-- Witness for the amended C7: on a request without a header the gate leaves
the concrete context untouched, and on a successful request the context handed
to the next handler differs from the original only in `user`. -/
theorem c7_amended_witness :
    (authGate (fun (c : Ctx Unit) => (c, ⟨200, Body.json "ok"⟩)) ⟨none, ()⟩
        none).ctx = (⟨none, ()⟩ : Ctx Unit) ∧
    (⟨some [], ()⟩ : Ctx Unit).rest = (⟨none, ()⟩ : Ctx Unit).rest :=
  ⟨(c7_amended_frame _ _ _ _).1 rfl,
   ((c7_amended_frame (fun t => jwtVerify t middlewareSecret)
      (fun c => (c, ⟨200, Body.json "ok"⟩)) (⟨none, ()⟩ : Ctx Unit)
      (some ("Bearer " ++ sign [] "BLOG_SECRET"))).2.1 ⟨some [], ()⟩ (by decide)).2⟩

/-- C8: the shared secret is a fixed literal compiled into the service — the
secret the gate verifies with equals the secret signin signs with, both are
the literal `"BLOG_SECRET"`, and the token issued for a found user is the same
expression over that literal whatever the environment bindings are. -/
theorem c8_hardcoded_shared_secret :
    middlewareSecret = signinSecret ∧ signinSecret = "BLOG_SECRET" ∧
    ∀ (env : Env) (lookup : Env → String → String → Option User)
      (email pw : String) (user : User),
      lookup env email pw = some user →
      signin env lookup email pw =
        SigninResult.success user (sign (signinPayload user) "BLOG_SECRET") := by
  refine ⟨rfl, rfl, ?_⟩
  intro env lookup email pw user hl
  unfold signin
  rw [hl]
  rfl

/-- Witness for C8: a concrete signin under a concrete environment issues the
token signed with the literal `"BLOG_SECRET"`. -/
theorem c8_witness :
    signin ⟨"postgres://db", none⟩
        (fun _ _ _ => some ⟨1, "alice", "a@b.com", "hunter42"⟩)
        "a@b.com" "hunter42" =
      SigninResult.success ⟨1, "alice", "a@b.com", "hunter42"⟩
        (sign (signinPayload ⟨1, "alice", "a@b.com", "hunter42"⟩) "BLOG_SECRET") :=
  c8_hardcoded_shared_secret.2.2 _ _ _ _ _ rfl

/-- C9: every successful signin signs the payload `{id, email, password}` —
including the stored plaintext password — into the issued token; verifying
that token returns the same payload, and the gate attaches it (password
included) to the request context of protected requests. -/
theorem c9_password_embedded_in_token
    (env : Env) (lookup : Env → String → String → Option User)
    (email pw : String) (user : User)
    (hl : lookup env email pw = some user) :
    signin env lookup email pw =
      SigninResult.success user (sign (signinPayload user) signinSecret) ∧
    ("password", ClaimVal.str user.password) ∈ signinPayload user ∧
    jwtVerify (sign (signinPayload user) signinSecret) middlewareSecret =
      VerifyResult.ok (signinPayload user) ∧
    ∀ {α : Type} (next : Ctx α → Ctx α × Response) (ctx : Ctx α),
      (authGate next ctx
          (some ("Bearer " ++ sign (signinPayload user) signinSecret))).ctxAtNext =
        some { ctx with user := some (signinPayload user) } := by
  refine ⟨?_, ?_, ?_, ?_⟩
  · unfold signin
    rw [hl]
  · simp [signinPayload]
  · exact jwtVerify_sign _ _
  · intro α next ctx
    have hok := authMiddleware_ok (fun t => jwtVerify t middlewareSecret) next ctx
      ("Bearer " ++ sign (signinPayload user) signinSecret) (signinPayload user)
      (startsWithB_bearer _)
      (by rw [strDrop_bearer]; exact jwtVerify_sign _ _)
    unfold authGate
    rw [hok]

/-- Witness for C9: a concrete user's signin token carries the plaintext
password in its signed payload. -/
theorem c9_witness :
    signin ⟨"db", none⟩ (fun _ _ _ => some ⟨7, "bob", "b@c.org", "pa55word"⟩)
        "b@c.org" "pa55word" =
      SigninResult.success ⟨7, "bob", "b@c.org", "pa55word"⟩
        (sign (signinPayload ⟨7, "bob", "b@c.org", "pa55word"⟩) signinSecret) ∧
    ("password", ClaimVal.str "pa55word") ∈
      signinPayload ⟨7, "bob", "b@c.org", "pa55word"⟩ :=
  ⟨(c9_password_embedded_in_token _ _ _ _ _ rfl).1,
   (c9_password_embedded_in_token ⟨"db", none⟩
      (fun _ _ _ => some ⟨7, "bob", "b@c.org", "pa55word"⟩)
      "b@c.org" "pa55word" ⟨7, "bob", "b@c.org", "pa55word"⟩ rfl).2.1⟩

/-- C10: token extraction always takes the exact substring after the
7-character `'Bearer '` prefix (the token `verify` is invoked on is `h` minus
its first 7 characters, on every outcome), and the edge case of the header
being exactly `'Bearer '` passes the header check, invokes `verify` on the
empty string, which throws, so the gate answers 400 `Invalid Token` — not the
401 used for a missing header. -/
theorem c10_empty_bearer_token_exception_path :
    (∀ {α : Type} (next : Ctx α → Ctx α × Response) (ctx : Ctx α) (h : String),
        startsWithB h "Bearer " = true →
        (authGate next ctx (some h)).verifyCalls = [strDrop h 7]) ∧
    (∀ {α : Type} (next : Ctx α → Ctx α × Response) (ctx : Ctx α),
        authGate next ctx (some "Bearer ") =
          { response := ⟨400, Body.json "Invalid Token"⟩
            ctx := ctx, ctxAtNext := none, verifyCalls := [""]
            log := ["JwtTokenInvalid"] }) := by
  constructor
  · intro α next ctx h hs
    unfold authGate
    cases hv : jwtVerify (strDrop h 7) middlewareSecret with
    | ok claim => rw [authMiddleware_ok _ next ctx h claim hs hv]
    | falsy => rw [authMiddleware_falsy _ next ctx h hs hv]
    | thrown e => rw [authMiddleware_thrown _ next ctx h e hs hv]
  · intro α next ctx
    have hthr := authMiddleware_thrown (fun t => jwtVerify t middlewareSecret)
      next ctx "Bearer " "JwtTokenInvalid" (by decide) (by decide)
    unfold authGate
    rw [hthr]
    have hx : strDrop "Bearer " 7 = "" := by decide
    rw [hx]

/-- Witness for C10: on header `Bearer xyz` the codec is invoked exactly on
`xyz`, and on header `Bearer ` (empty token) the gate answers 400. -/
theorem c10_witness :
    (authGate (fun (c : Ctx Unit) => (c, ⟨200, Body.json "ok"⟩)) ⟨none, ()⟩
        (some "Bearer xyz")).verifyCalls = [strDrop "Bearer xyz" 7] ∧
    authGate (fun (c : Ctx Unit) => (c, ⟨200, Body.json "ok"⟩)) ⟨none, ()⟩
        (some "Bearer ") =
      { response := ⟨400, Body.json "Invalid Token"⟩
        ctx := ⟨none, ()⟩, ctxAtNext := none, verifyCalls := [""]
        log := ["JwtTokenInvalid"] } :=
  ⟨c10_empty_bearer_token_exception_path.1 _ _ "Bearer xyz" (by decide),
   c10_empty_bearer_token_exception_path.2 _ _⟩
